import Mathlib

/-!
Verification development for the MEV bot pipeline: a shallow embedding of
the Risk & Admission Control subsystem (`src/risk/RiskManager.js`,
`src/risk/CircuitBreaker.js`), the Chain Event Monitor (`src/core/Monitor.js`),
the Execution Engine (`src/core/Executor.js`), the provider pool
(`src/infrastructure/FlashbotsProvider.js` / `ProviderManager`), and the
orchestrating `MEVBot.handleOpportunity` pipeline, together with theorems
settling the spec's testable properties against the code.

Conventions of the embedding:
* ether/wei amounts carried as `BigNumber` in the source are modelled as `ℤ`
  (wei), and values derived from formatted strings or float arithmetic as `ℚ`;
* JavaScript truthiness of the `value` / `maxValue` fields of a risk check
  (numbers are falsy at 0, non-empty strings are always truthy) is modelled by
  the `JSNum` type;
* the JavaScript `a || b` default idiom is modelled by `jsOr` (numeric
  configuration values, where `0` falls back to the default) or by
  `Option.getD` (string configuration values, where any present string is
  truthy);
* `BigNumber.div` (integer division truncating toward zero) is `Int.tdiv`.
-/

namespace MevBot

/-- JavaScript value as it appears in the `value`/`maxValue` fields of a risk
check: absent (`undef`), a number, or a numeric string (the result of
`formatEther`/`formatUnits`/`toFixed`/`toString`, carried here as the rational
it parses to). -/
inductive JSNum where
  | undef : JSNum
  | num : ℚ → JSNum
  | str : ℚ → JSNum
deriving DecidableEq

/-- JavaScript truthiness: `undefined` is falsy, a number is falsy exactly at
0, a (non-empty) numeric string is truthy. -/
def JSNum.truthy : JSNum → Bool
  | .undef => false
  | .num q => q != 0
  | .str _ => true

/-- The `parseFloat` of the carried value (0 for `undefined`; that case is never
reached behind a truthiness guard). -/
def JSNum.toQ : JSNum → ℚ
  | .undef => 0
  | .num q => q
  | .str q => q

/-- The JavaScript `x || d` default idiom for a numeric configuration field:
an absent or zero value falls back to the default. -/
def jsOr (o : Option ℚ) (d : ℚ) : ℚ :=
  match o with
  | none => d
  | some x => if x = 0 then d else x

/-- The JavaScript `a || b` idiom on two optional `BigNumber` fields: a
`BigNumber` object is always truthy (even at numeric zero), so the first
present field wins. -/
def jsFirst (a b : Option ℤ) : Option ℤ :=
  match a with
  | some x => some x
  | none => b

/-! ## RiskManager: checks and composite score (`src/risk/RiskManager.js`) -/

/-- One entry of the `checks` array built by `RiskManager.assessOpportunity`.
Only the fields read by `calculateRiskScore` (`passed`, `weight`, `value`,
`maxValue`) plus `name` and `reason` are modelled; checks that carry a
`minValue` instead of a `maxValue` have `maxValue = .undef`. -/
structure RiskCheck where
  name : String
  passed : Bool
  value : JSNum
  maxValue : JSNum
  weight : ℚ
  reason : Option String
deriving DecidableEq

/-- The `check.weight || 1` in `calculateRiskScore`. -/
def effWeight (w : ℚ) : ℚ := if w = 0 then 1 else w

/-- The contribution of one check to `totalScore` in
`RiskManager.calculateRiskScore`: a failed check adds `weight * 10`; a passed
check with truthy `value` and `maxValue` adds
`weight * (parseFloat value / parseFloat maxValue) * 5`; otherwise nothing. -/
def checkContribution (c : RiskCheck) : ℚ :=
  if !c.passed then effWeight c.weight * 10
  else if c.value.truthy && c.maxValue.truthy then
    effWeight c.weight * (c.value.toQ / c.maxValue.toQ) * 5
  else 0

/-- The `totalWeight` accumulated by `RiskManager.calculateRiskScore`. -/
def totalWeight (checks : List RiskCheck) : ℚ :=
  (checks.map (fun c => effWeight c.weight)).sum

/-- The `RiskManager.calculateRiskScore`: `Math.min(10, totalScore / totalWeight)`. -/
def calculateRiskScore (checks : List RiskCheck) : ℚ :=
  min 10 ((checks.map checkContribution).sum / totalWeight checks)

/-- The `config.risk` object consumed by the `RiskManager` constructor and
checks. All fields are optional; `maxPositionETH`, `maxDailyLossETH` and
`maxGasGwei` are configuration strings (default applied via `||` on the
string, so a present `"0"` is kept), the remaining fields are numbers
(default applied via `||` on the number, so `0` falls back). `maxRiskScore`
has no in-code default anywhere in `RiskManager`. -/
structure RMConfig where
  maxPositionETH : Option ℚ := none
  maxDailyLossETH : Option ℚ := none
  maxGasGwei : Option ℚ := none
  minProfitRatio : Option ℚ := none
  maxTokenRisk : Option ℚ := none
  maxDexRisk : Option ℚ := none
  maxSlippageBps : Option ℚ := none
  maxRiskScore : Option ℚ := none
deriving DecidableEq

/-- The `parseEther(config.maxPositionETH || '10')`, in wei. -/
def RMConfig.maxPositionWei (cfg : RMConfig) : ℚ := cfg.maxPositionETH.getD 10 * 1000000000000000000

/-- The `parseEther(config.maxDailyLossETH || '1')`, in wei. -/
def RMConfig.maxDailyLossWei (cfg : RMConfig) : ℚ := cfg.maxDailyLossETH.getD 1 * 1000000000000000000

/-- The `parseUnits(config.maxGasGwei || '100', 'gwei')`, in wei. -/
def RMConfig.maxGasPriceWei (cfg : RMConfig) : ℚ := cfg.maxGasGwei.getD 100 * 1000000000

/-- The `config.minProfitRatio || 1.5`. -/
def RMConfig.minProfitRatioV (cfg : RMConfig) : ℚ := jsOr cfg.minProfitRatio (3 / 2)

/-- The `config.maxTokenRisk || 5`. -/
def RMConfig.maxTokenRiskV (cfg : RMConfig) : ℚ := jsOr cfg.maxTokenRisk 5

/-- The `config.maxDexRisk || 5`. -/
def RMConfig.maxDexRiskV (cfg : RMConfig) : ℚ := jsOr cfg.maxDexRisk 5

/-- The `config.maxSlippageBps || 50`. -/
def RMConfig.maxSlippageBpsV (cfg : RMConfig) : ℚ := jsOr cfg.maxSlippageBps 50

/-- The `dailyStats` record owned by the `RiskManager`. Amounts in wei. -/
structure DailyStats where
  date : ℕ
  totalLoss : ℤ
  totalProfit : ℤ
  tradesExecuted : ℕ
  tradesRejected : ℕ
deriving DecidableEq

/-- Fresh daily stats for the given date, as built by the constructor and by
`checkDailyReset`. -/
def freshStats (d : ℕ) : DailyStats :=
  { date := d, totalLoss := 0, totalProfit := 0, tradesExecuted := 0, tradesRejected := 0 }

/-- UTC calendar date of a millisecond timestamp, abstracted as the day
number (`new Date(t).toISOString().split('T')[0]` identifies the day). -/
def dayOf (now : ℕ) : ℕ := now / 86400000

/-- The `RiskManager.checkDailyReset`: reset the daily stats when the UTC date
has rolled over. -/
def checkDailyReset (now : ℕ) (stats : DailyStats) : DailyStats :=
  if dayOf now ≠ stats.date then freshStats (dayOf now) else stats

/-- The duck-typed `opportunity` object, restricted to the fields read by
`RiskManager.assessOpportunity` and `Executor.execute`. Money fields are
optional `BigNumber`s (wei, `ℤ`). `expiresAt`/`createdAt` belong to the data
model of the spec; no function of the source reads them. -/
structure Opportunity where
  amount : Option ℤ := none
  inputAmount : Option ℤ := none
  gasPrice : Option ℤ := none
  expectedProfit : Option ℤ := none
  netProfit : Option ℤ := none
  gasCost : Option ℤ := none
  tokenA : Option String := none
  tokenB : Option String := none
  asset : Option String := none
  path : Option (List String) := none
  dex : Option String := none
  buyDex : Option String := none
  sellDex : Option String := none
  quotes : Option (List (Option String)) := none
  otype : String := ""
  strategy : String := ""
  requiresBundle : Bool := false
  expiresAt : ℕ := 0
  createdAt : ℕ := 0
deriving DecidableEq

/-- Token risk scores installed by `RiskManager.initializeRiskScores`. -/
def tokenRiskScores : List (String × ℚ) :=
  [("WETH", 1), ("USDC", 1), ("USDT", 2), ("DAI", 1),
   ("WBTC", 2), ("UNI", 3), ("LINK", 3), ("AAVE", 3)]

/-- DEX risk scores installed by `RiskManager.initializeRiskScores`. -/
def dexRiskScores : List (String × ℚ) :=
  [("uniswapV3", 1), ("uniswapV2", 2), ("sushiswap", 2),
   ("curve", 1), ("balancer", 2), ("bancor", 3)]

/-- JavaScript `Set` insertion order: keep the first occurrence of each
element. -/
def jsSet (l : List String) : List String :=
  l.foldl (fun acc t => if t ∈ acc then acc else acc ++ [t]) []

/-- The `RiskManager.extractTokens`: tokenA, tokenB, the path, and the asset,
collected into a `Set` (insertion order, first occurrence kept). -/
def extractTokens (opp : Opportunity) : List String :=
  jsSet (opp.tokenA.toList ++ opp.tokenB.toList ++ (opp.path.getD []) ++ opp.asset.toList)

/-- The `RiskManager.extractDexes`: dex, buyDex, sellDex and the dexes of the
quotes, collected into a `Set`. -/
def extractDexes (opp : Opportunity) : List String :=
  jsSet (opp.dex.toList ++ opp.buyDex.toList ++ opp.sellDex.toList
    ++ (opp.quotes.getD []).filterMap id)

/-- The `RiskManager.checkDailyLossLimit`: remaining budget
`maxDailyLoss - dailyStats.totalLoss` must be strictly positive. The `value`
is a `formatEther` string; there is no `maxValue` field. Weight 10. -/
def checkDailyLossLimit (cfg : RMConfig) (stats : DailyStats) : RiskCheck :=
  let remaining : ℚ := cfg.maxDailyLossWei - (stats.totalLoss : ℚ)
  { name := "dailyLossLimit",
    passed := decide (0 < remaining),
    value := .str (remaining / 1000000000000000000),
    maxValue := .undef,
    weight := 10,
    reason := if remaining ≤ 0 then some "Daily loss limit reached" else none }

/-- The `RiskManager.checkPositionSize`:
`opportunity.amount || opportunity.inputAmount || BigNumber.from(0)` must not
exceed `maxPositionSize`. `value`/`maxValue` are `formatEther` strings.
Weight 8. -/
def checkPositionSize (cfg : RMConfig) (opp : Opportunity) : RiskCheck :=
  let ps : ℤ := (jsFirst opp.amount opp.inputAmount).getD 0
  let passed := decide ((ps : ℚ) ≤ cfg.maxPositionWei)
  { name := "positionSize",
    passed := passed,
    value := .str ((ps : ℚ) / 1000000000000000000),
    maxValue := .str (cfg.maxPositionWei / 1000000000000000000),
    weight := 8,
    reason := if passed then none else some "Position size exceeds maximum" }

/-- The `RiskManager.checkGasPrice`: the opportunity's gas price (or the
30 gwei returned by the `getGasPrice` stub) must not exceed `maxGasPrice`.
`value`/`maxValue` are `formatUnits(..., 'gwei')` strings. Weight 6. -/
def checkGasPrice (cfg : RMConfig) (opp : Opportunity) : RiskCheck :=
  let gp : ℚ := match opp.gasPrice with
    | some g => (g : ℚ)
    | none => 30000000000
  let passed := decide (gp ≤ cfg.maxGasPriceWei)
  { name := "gasPrice",
    passed := passed,
    value := .str (gp / 1000000000),
    maxValue := .str (cfg.maxGasPriceWei / 1000000000),
    weight := 6,
    reason := if passed then none else some "Gas price too high" }

/-- The `RiskManager.checkProfitRatio`: with
`expectedProfit || netProfit` and a non-zero `gasCost`,
`ratio = expectedProfit.mul(100).div(gasCost).toNumber() / 100`
(`BigNumber.div` truncates toward zero) must reach `minProfitRatio`;
otherwise the check fails with reason `Invalid profit calculation`.
The `value` is a `toFixed(2)` string; the bound field is `minValue`, so no
`maxValue` is present. Weight 9 on the invalid branch, 7 otherwise. -/
def checkProfitRatio (cfg : RMConfig) (opp : Opportunity) : RiskCheck :=
  match jsFirst opp.expectedProfit opp.netProfit, opp.gasCost with
  | some ep, some gc =>
    if gc = 0 then
      { name := "profitRatio", passed := false, value := .undef, maxValue := .undef,
        weight := 9, reason := some "Invalid profit calculation" }
    else
      let ratio : ℚ := ((Int.tdiv (ep * 100) gc : ℤ) : ℚ) / 100
      let passed := decide (cfg.minProfitRatioV ≤ ratio)
      { name := "profitRatio",
        passed := passed,
        value := .str ratio,
        maxValue := .undef,
        weight := 7,
        reason := if passed then none else some "Profit ratio too low" }
  | _, _ =>
    { name := "profitRatio", passed := false, value := .undef, maxValue := .undef,
      weight := 9, reason := some "Invalid profit calculation" }

/-- Risk of one token: `tokenRiskScores.get(token) || 5`. -/
def tokenRiskOf (t : String) : ℚ := jsOr (tokenRiskScores.lookup t) 5

/-- Risk of one DEX: `dexRiskScores.get(dex) || 5`. -/
def dexRiskOf (d : String) : ℚ := jsOr (dexRiskScores.lookup d) 5

/-- The `RiskManager.checkTokenRisk`: the maximum risk over the extracted tokens
(`maxRisk` starts at 0) must not exceed `maxTokenRisk`. `value`/`maxValue`
are numbers. Weight 5. -/
def checkTokenRisk (cfg : RMConfig) (opp : Opportunity) : RiskCheck :=
  let maxRisk := (extractTokens opp).foldl (fun m t => max m (tokenRiskOf t)) 0
  let passed := decide (maxRisk ≤ cfg.maxTokenRiskV)
  { name := "tokenRisk",
    passed := passed,
    value := .num maxRisk,
    maxValue := .num cfg.maxTokenRiskV,
    weight := 5,
    reason := if passed then none else some "Token risk too high" }

/-- The `RiskManager.checkDexRisk`: the maximum risk over the extracted DEXes
must not exceed `maxDexRisk`. Weight 4. -/
def checkDexRisk (cfg : RMConfig) (opp : Opportunity) : RiskCheck :=
  let maxRisk := (extractDexes opp).foldl (fun m d => max m (dexRiskOf d)) 0
  let passed := decide (maxRisk ≤ cfg.maxDexRiskV)
  { name := "dexRisk",
    passed := passed,
    value := .num maxRisk,
    maxValue := .num cfg.maxDexRiskV,
    weight := 4,
    reason := if passed then none else some "DEX risk too high" }

/-- The `RiskManager.estimateSlippage`: base 10 bps; doubled for a trade above
100 ether; multiplied by 1.5 for a path longer than 2 hops. -/
def estimateSlippage (opp : Opportunity) : ℚ :=
  let pathSlip : ℚ := match opp.path with
    | some l => if 2 < l.length then 15 else 10
    | none => 10
  match jsFirst opp.amount opp.inputAmount with
  | some ts => if 100000000000000000000 < (ts : ℚ) then 20 else pathSlip
  | none => pathSlip

/-- The `RiskManager.checkSlippage`: estimated slippage must not exceed
`maxSlippageBps || 50`. `value`/`maxValue` are numbers. Weight 6. -/
def checkSlippage (cfg : RMConfig) (opp : Opportunity) : RiskCheck :=
  let slip := estimateSlippage opp
  let passed := decide (slip ≤ cfg.maxSlippageBpsV)
  { name := "slippage",
    passed := passed,
    value := .num slip,
    maxValue := .num cfg.maxSlippageBpsV,
    weight := 6,
    reason := if passed then none else some "Slippage too high" }

/-- The `RiskManager.checkLiquidity`: with the `estimateLiquidity` stub of
1000 ether, the ratio `estimatedLiquidity.div(tradeSize)` (truncating
`BigNumber` division) must be at least 10. Without a trade size the check
passes vacuously with weight 3. The bound field is `minValue`, so no
`maxValue` is present. Weight 5. -/
def checkLiquidity (opp : Opportunity) : RiskCheck :=
  match jsFirst opp.amount opp.inputAmount with
  | none =>
    { name := "liquidity", passed := true, value := .undef, maxValue := .undef,
      weight := 3, reason := none }
  | some ts =>
    let ratio : ℤ := Int.tdiv (10 ^ 21) ts
    let passed := decide ((10 : ℤ) ≤ ratio)
    { name := "liquidity",
      passed := passed,
      value := .str (ratio : ℚ),
      maxValue := .undef,
      weight := 5,
      reason := if passed then none else some "Insufficient liquidity" }

/-- The `BigNumber.div` throws on division by zero: `checkLiquidity` divides the
liquidity stub by the trade size, so a present zero trade size makes the
`Promise.all` in `assessOpportunity` reject into its `catch` branch. -/
def liquidityThrows (opp : Opportunity) : Bool :=
  jsFirst opp.amount opp.inputAmount == some 0

/-- The ordered check list built by `RiskManager.assessOpportunity`. -/
def assessChecks (cfg : RMConfig) (stats : DailyStats) (opp : Opportunity) : List RiskCheck :=
  [checkDailyLossLimit cfg stats,
   checkPositionSize cfg opp,
   checkGasPrice cfg opp,
   checkProfitRatio cfg opp,
   checkTokenRisk cfg opp,
   checkDexRisk cfg opp,
   checkSlippage cfg opp,
   checkLiquidity opp]

/-- The assessment object returned by `RiskManager.assessOpportunity`. The
`catch` branch returns a reduced object without `score`/`checks`, modelled by
`score = none` and empty lists. The `positionSize` field (computed by the
external `PositionSizer` only on approval) is not read by any claim and is
omitted. -/
structure RiskAssessment where
  approved : Bool
  score : Option ℚ
  checks : List RiskCheck
  failedChecks : List RiskCheck
  reason : Option String
deriving DecidableEq

/-- The object returned by the `catch` branch of `assessOpportunity`. -/
def errorAssessment : RiskAssessment :=
  { approved := false, score := none, checks := [], failedChecks := [],
    reason := some "Risk assessment error" }

/-- The `RiskManager.assessOpportunity`: reset the daily stats on date rollover,
run the eight checks, filter the failures, compute the composite score, and
approve exactly when no check failed and the score is strictly below
`config.maxRiskScore` (a comparison with `undefined` is false, so an absent
`maxRiskScore` never approves). Returns the assessment and the updated daily
stats (`tradesExecuted`/`tradesRejected`). There is no check of
`opportunity.expiresAt` anywhere in the function. -/
def assessOpportunity (cfg : RMConfig) (stats : DailyStats) (opp : Opportunity)
    (now : ℕ) : RiskAssessment × DailyStats :=
  let stats1 := checkDailyReset now stats
  if liquidityThrows opp then (errorAssessment, stats1)
  else
    let checks := assessChecks cfg stats1 opp
    let riskFactors := checks.filter (fun c => !c.passed)
    let riskScore := calculateRiskScore checks
    let approved := riskFactors.isEmpty &&
      (match cfg.maxRiskScore with
       | some m => decide (riskScore < m)
       | none => false)
    let assessment : RiskAssessment :=
      { approved := approved,
        score := some riskScore,
        checks := checks,
        failedChecks := riskFactors,
        reason := if approved then none else riskFactors.head?.bind (fun c => c.reason) }
    let stats2 :=
      if approved then { stats1 with tradesExecuted := stats1.tradesExecuted + 1 }
      else { stats1 with tradesRejected := stats1.tradesRejected + 1 }
    (assessment, stats2)

/-- The `RiskManager.updateTradeResult`: only a successful trade touches the
daily stats; a positive profit accumulates into `totalProfit`, otherwise the
absolute value accumulates into `totalLoss`. A failed trade changes nothing. -/
structure TradeResult where
  success : Bool
  profit : ℤ
deriving DecidableEq

/-- The `RiskManager.updateTradeResult`, acting on the daily stats. -/
def updateTradeResult (stats : DailyStats) (r : TradeResult) : DailyStats :=
  if r.success then
    if 0 < r.profit then { stats with totalProfit := stats.totalProfit + r.profit }
    else { stats with totalLoss := stats.totalLoss + |r.profit| }
  else stats

/-! ## CircuitBreaker (`src/risk/CircuitBreaker.js`) -/

/-- The three breaker states (`closed` / `open` / `half-open`). -/
inductive CBState where
  | closed : CBState
  | opened : CBState
  | halfOpen : CBState
deriving DecidableEq

/-- Circuit breaker configuration with the constructor's `||` defaults. -/
structure CBConfig where
  maxFailuresPerHour : ℕ := 10
  maxConsecutiveFailures : ℕ := 5
  cooldownMinutes : ℕ := 30
deriving DecidableEq

/-- Circuit breaker state. Timestamps are milliseconds (`ℤ`).
`cooldownTimers` records the recovery timers scheduled by `setTimeout` in
`trip` (the wall-clock instants at which `attemptRecovery` would fire):
`trip` appends one exactly when it actually trips. -/
structure CB where
  state : CBState
  failures : ℕ
  consecutiveFailures : ℕ
  lastFailureTime : Option ℤ
  hourlyFailures : List ℤ
  cooldownTimers : List ℤ
deriving DecidableEq

/-- Breaker state at construction. -/
def CB.init : CB :=
  { state := .closed, failures := 0, consecutiveFailures := 0,
    lastFailureTime := none, hourlyFailures := [], cooldownTimers := [] }

/-- The `CircuitBreaker.trip`: an already-open breaker returns immediately
(the cooldown timer is not re-armed); otherwise the state becomes open and a
recovery attempt is scheduled `cooldownMinutes` later. -/
def CB.trip (cfg : CBConfig) (now : ℤ) (cb : CB) : CB :=
  if cb.state = .opened then cb
  else { cb with state := .opened,
                 cooldownTimers := cb.cooldownTimers ++ [now + cfg.cooldownMinutes * 60000] }

/-- The `CircuitBreaker.evaluateCircuit`: prune the hourly failure list to the
trailing hour, then trip on `consecutiveFailures >= maxConsecutiveFailures`
or on the pruned hourly count reaching `maxFailuresPerHour`. -/
def CB.evaluateCircuit (cfg : CBConfig) (now : ℤ) (cb : CB) : CB :=
  let pruned := { cb with hourlyFailures := cb.hourlyFailures.filter (fun t => now - 3600000 < t) }
  if cfg.maxConsecutiveFailures ≤ pruned.consecutiveFailures then pruned.trip cfg now
  else if cfg.maxFailuresPerHour ≤ pruned.hourlyFailures.length then pruned.trip cfg now
  else pruned

/-- The `CircuitBreaker.recordFailure` (the per-strategy counter is orthogonal to
the state machine and omitted): bump the counters, stamp the failure, push a
timestamped hourly entry, then evaluate the circuit. -/
def CB.recordFailure (cfg : CBConfig) (now : ℤ) (cb : CB) : CB :=
  CB.evaluateCircuit cfg now
    { cb with failures := cb.failures + 1,
              consecutiveFailures := cb.consecutiveFailures + 1,
              lastFailureTime := some now,
              hourlyFailures := cb.hourlyFailures ++ [now] }

/-- The `CircuitBreaker.close`: back to normal operation. -/
def CB.close (cb : CB) : CB :=
  { cb with state := .closed, consecutiveFailures := 0 }

/-- The `CircuitBreaker.recordSuccess`: reset the consecutive-failure count and,
when half-open, close the circuit. -/
def CB.recordSuccess (cb : CB) : CB :=
  let cb1 := { cb with consecutiveFailures := 0 }
  if cb1.state = .halfOpen then cb1.close else cb1

/-- The `CircuitBreaker.attemptRecovery` (the scheduled cooldown callback): an
open breaker becomes half-open; otherwise nothing happens. -/
def CB.attemptRecovery (cb : CB) : CB :=
  if cb.state = .opened then { cb with state := .halfOpen } else cb

/-! ## Chain Event Monitor (`src/core/Monitor.js`) -/

/-- A transaction as observed by the Monitor: hash, optional destination,
value in wei, and the length of the calldata string (`tx.data.length`;
`"0x"` has length 2). -/
structure MTx where
  hash : ℕ
  toAddr : Option ℕ
  value : ℕ
  dataLen : ℕ
deriving DecidableEq

/-- The `type` field of a decoded transaction as switched on by
`Monitor.emitSpecificEvents`. -/
inductive DType where
  | swap : DType
  | liquidation : DType
  | flashloan : DType
  | borrow : DType
  | repay : DType
  | transfer : DType
  | approval : DType
deriving DecidableEq

/-- Result of `Monitor.decodeTransaction` when non-null: only the `type`
field drives event emission. -/
structure Decoded where
  ty : Option DType
deriving DecidableEq

/-- Monitor configuration: value thresholds (ether, with the `|| '0.1'` and
`|| '10'` string defaults) and the monitored target contract set. -/
structure MonitorConfig where
  minTransactionValue : Option ℚ := none
  highValueThreshold : Option ℚ := none
  targetContracts : List ℕ := []
deriving DecidableEq

/-- The `parseEther(config.monitor.minTransactionValue || '0.1')`, in wei. -/
def MonitorConfig.minValueWei (cfg : MonitorConfig) : ℚ :=
  cfg.minTransactionValue.getD (1 / 10) * 1000000000000000000

/-- The `parseEther(config.monitor.highValueThreshold || '10')`, in wei. -/
def MonitorConfig.highValueWei (cfg : MonitorConfig) : ℚ :=
  cfg.highValueThreshold.getD 10 * 1000000000000000000

/-- Monitor-owned dedup state: the `processedTxs` set (modelled as a list
with membership semantics; `Set.add` prepends). -/
structure MonitorState where
  processedTxs : List ℕ
deriving DecidableEq

/-- Events emitted by the Monitor that the claims observe. The classified
per-transaction event is `transaction`; `emitSpecificEvents` adds the
kind-specific and high-value events; `blockEvt` is the per-block summary. -/
inductive MEvent where
  | transaction : ℕ → MEvent
  | swap : ℕ → MEvent
  | liquidation : ℕ → MEvent
  | flashloan : ℕ → MEvent
  | lending : ℕ → MEvent
  | highValue : ℕ → MEvent
  | blockEvt : ℕ → MEvent
deriving DecidableEq

/-- The `Monitor.isTargetTransaction`: destination present and in the monitored
contract set. -/
def isTargetTransaction (cfg : MonitorConfig) (tx : MTx) : Bool :=
  match tx.toAddr with
  | none => false
  | some a => decide (a ∈ cfg.targetContracts)

/-- The `Monitor.isInterestingTransaction`: must have a destination, and either
the value reaches the threshold, the destination is monitored, or the
calldata string is longer than 10 characters. -/
def isInterestingTransaction (cfg : MonitorConfig) (tx : MTx) : Bool :=
  match tx.toAddr with
  | none => false
  | some _ =>
    decide (cfg.minValueWei ≤ (tx.value : ℚ)) || isTargetTransaction cfg tx
      || decide (10 < tx.dataLen)

/-- The `Monitor.emitSpecificEvents`: kind-specific event per decoded type
(`borrow`/`repay` both map to `lending`), plus `highValue` at or above the
threshold. -/
def emitSpecificEvents (cfg : MonitorConfig) (tx : MTx) (d : Decoded) : List MEvent :=
  (match d.ty with
   | some .swap => [.swap tx.hash]
   | some .liquidation => [.liquidation tx.hash]
   | some .flashloan => [.flashloan tx.hash]
   | some .borrow => [.lending tx.hash]
   | some .repay => [.lending tx.hash]
   | _ => [])
  ++ (if cfg.highValueWei ≤ (tx.value : ℚ) then [.highValue tx.hash] else [])

/-- The `Monitor.processTransaction` (parameterised by the decoder registry
`decode`, standing for `decodeTransaction`): unconditionally mark the hash
processed, then — when interesting and decodable — emit the classified
`transaction` event followed by the specific events. Note that this function
does NOT itself consult `processedTxs`. -/
def processTransaction (decode : MTx → Option Decoded) (cfg : MonitorConfig)
    (st : MonitorState) (tx : MTx) : MonitorState × List MEvent :=
  let st1 : MonitorState := { st with processedTxs := tx.hash :: st.processedTxs }
  if !isInterestingTransaction cfg tx then (st1, [])
  else
    match decode tx with
    | none => (st1, [])
    | some d => (st1, .transaction tx.hash :: emitSpecificEvents cfg tx d)

/-- The pending-transaction subscription handler installed by
`Monitor.startPendingMonitoring`: drop a hash already in `processedTxs`,
fetch the transaction (`none` models a dropped/replaced transaction), and
process it only when it targets a monitored contract. -/
def pendingStep (decode : MTx → Option Decoded) (cfg : MonitorConfig)
    (st : MonitorState) (h : ℕ) (fetch : ℕ → Option MTx) : MonitorState × List MEvent :=
  if h ∈ st.processedTxs then (st, [])
  else
    match fetch h with
    | none => (st, [])
    | some tx => if isTargetTransaction cfg tx then processTransaction decode cfg st tx
                 else (st, [])

/-- The block subscription handler installed by
`Monitor.startBlockMonitoring`: every transaction of the block goes through
`processTransaction` (no consultation of `processedTxs`), then the `block`
summary event is emitted. -/
def blockStep (decode : MTx → Option Decoded) (cfg : MonitorConfig)
    (st : MonitorState) (blockNumber : ℕ) (txs : List MTx) : MonitorState × List MEvent :=
  let r := txs.foldl
    (fun acc tx =>
      let p := processTransaction decode cfg acc.1 tx
      (p.1, acc.2 ++ p.2))
    (st, ([] : List MEvent))
  (r.1, r.2 ++ [.blockEvt blockNumber])

/-- Number of classified (`transaction`) events for a given hash in an event
trace. -/
def classifiedCount (evs : List MEvent) (h : ℕ) : ℕ :=
  (evs.filter (fun e => e = .transaction h)).length

/-! ## Execution Engine (`src/core/Executor.js`) -/

/-- The `Executor.getNonce`: `this.nonces.get(address) || await
provider.getTransactionCount(address, 'pending')` — note the `||`, under
which a tracked nonce of 0 also falls back to the chain query — then store
`current + 1` and return `current`. State is the tracked entry for one
wallet; `chainPending` is the chain's pending transaction count. -/
def getNonce (chainPending : ℕ) (tracked : Option ℕ) : ℕ × Option ℕ :=
  let current := match tracked with
    | some n => if n = 0 then chainPending else n
    | none => chainPending
  (current, some (current + 1))

/-- The nonces `Executor.buildBundle` assigns to a `k`-transaction bundle:
one `getNonce` call reserves a single nonce `n`, and transaction `i` of the
bundle is given `n + i`. Returns the assigned nonces and the tracked-counter
state after the build. -/
def buildBundleNonces (k : ℕ) (chainPending : ℕ) (tracked : Option ℕ) :
    List ℕ × Option ℕ :=
  let r := getNonce chainPending tracked
  ((List.range k).map (fun i => r.1 + i), r.2)

/-- Result of a simulation in `Executor.simulate`: success flag and the
simulated profit in wei. -/
structure SimResult where
  success : Bool
  profit : ℤ
deriving DecidableEq

/-- The dispatch path chosen at the bottom of `Executor.execute`. -/
inductive DispatchPath where
  | sandwich : DispatchPath
  | flashloan : DispatchPath
  | bundle : DispatchPath
  | standard : DispatchPath
deriving DecidableEq

/-- Outcome of the gating portion of `Executor.execute`: either an early
failure return (no transaction is signed or submitted) or a dispatch through
one of the four paths (signing/submission happens only inside the dispatch
branches). -/
inductive ExecDecision where
  | rejected : String → ExecDecision
  | dispatched : DispatchPath → ExecDecision
deriving DecidableEq

/-- Path selection of `Executor.execute`. -/
def dispatchPath (opp : Opportunity) : DispatchPath :=
  if opp.otype = "sandwich" then .sandwich
  else if opp.otype = "flashloan" then .flashloan
  else if opp.requiresBundle then .bundle
  else .standard

/-- The `parseEther(config.strategies[opportunity.strategy].minProfitETH ||
'0.001')`, in wei; `minProfitETH` is the strategy's configured minimum. -/
def execMinProfitWei (minProfitETH : Option ℚ) : ℚ :=
  minProfitETH.getD (1 / 1000) * 1000000000000000000

/-- The simulation gate of `Executor.execute`: a failed simulation returns
`{success: false, reason: 'Simulation failed'}`; a simulated profit below the
configured minimum returns `{success: false, reason: 'Profit below minimum
threshold'}`; only otherwise is a dispatch path entered. The gate reads the
simulation's profit, never `opportunity.expectedProfit`. -/
def executeGate (minProfitETH : Option ℚ) (opp : Opportunity) (sim : SimResult) :
    ExecDecision :=
  if !sim.success then .rejected "Simulation failed"
  else if (sim.profit : ℚ) < execMinProfitWei minProfitETH then
    .rejected "Profit below minimum threshold"
  else .dispatched (dispatchPath opp)

/-! ## Provider pool (`ProviderManager` in
`src/infrastructure/FlashbotsProvider.js`) -/

/-- Per-provider health record (`providerStats`). -/
structure ProviderStats where
  requests : ℕ
  errors : ℕ
  latency : List ℚ
  healthy : Bool
deriving DecidableEq

/-- A pooled provider: name, configured priority, and its stats record. -/
structure Provider where
  name : String
  priority : ℚ
  stats : ProviderStats
deriving DecidableEq

/-- Average latency in `getBestProvider` (100 when no samples). -/
def avgLatency (s : ProviderStats) : ℚ :=
  if s.latency = [] then 100 else s.latency.sum / s.latency.length

/-- Error rate in `getBestProvider` (0 when no requests). -/
def errorRate (s : ProviderStats) : ℚ :=
  if s.requests = 0 then 0 else (s.errors : ℚ) / (s.requests : ℚ)

/-- The score computed by `ProviderManager.getBestProvider`
(`avgLatency + errorRate * 1000 - priority * 10`, lower is better). -/
def providerScore (p : Provider) : ℚ :=
  avgLatency p.stats + errorRate p.stats * 1000 - p.priority * 10

/-- One iteration of the selection loop in `getBestProvider`: unhealthy
providers are skipped; a healthy provider replaces the incumbent when its
score is strictly smaller (`bestScore` starts at `Infinity`, modelled by
`none`). -/
def bestStep (acc : Provider × Option ℚ) (p : Provider) : Provider × Option ℚ :=
  if !p.stats.healthy then acc
  else
    match acc.2 with
    | none => (p, some (providerScore p))
    | some s => if providerScore p < s then (p, some (providerScore p)) else acc

/-- The `ProviderManager.getBestProvider`: fold the scoring loop over the pool,
starting from the primary provider with `bestScore = Infinity`. -/
def getBestProvider (primary : Provider) (ps : List Provider) : Provider :=
  (ps.foldl bestStep (primary, none)).1

/-- The provider score as the spec's words state it
(`latency - errorRate * 1000 + priority * 10`, lower is better); kept solely
to compare the specified selection rule with the code's. -/
def specProviderScore (p : Provider) : ℚ :=
  avgLatency p.stats - errorRate p.stats * 1000 + p.priority * 10

/-- The selection loop using the spec's score formula. -/
def specBestStep (acc : Provider × Option ℚ) (p : Provider) : Provider × Option ℚ :=
  if !p.stats.healthy then acc
  else
    match acc.2 with
    | none => (p, some (specProviderScore p))
    | some s => if specProviderScore p < s then (p, some (specProviderScore p)) else acc

/-- The `best()` as specified (same loop shape, spec's score formula). -/
def getBestProviderSpec (primary : Provider) (ps : List Provider) : Provider :=
  (ps.foldl specBestStep (primary, none)).1

/-! ## Pipeline (`MEVBot.handleOpportunity` in `src/core/index.js`) -/

/-- The circuit-breaker reporting calls available to the pipeline. -/
inductive BreakerCall where
  | recordFailure : BreakerCall
  | recordSuccess : BreakerCall
deriving DecidableEq

/-- Result object returned by `Executor.execute` as consumed by
`handleOpportunity`. -/
structure ExecResult where
  success : Bool
  profit : ℤ
deriving DecidableEq

/-- The circuit-breaker calls made by one run of `MEVBot.handleOpportunity`:
nothing when the breaker is tripped or the assessment is rejected; on an
executed opportunity, the failure branch calls `recordFailure()` once and the
success branch records the trade in the database and metrics but makes no
breaker call at all (`recordSuccess` has no caller in the pipeline). -/
def handleOpportunityBreakerCalls (tripped : Bool) (assessment : RiskAssessment)
    (result : ExecResult) : List BreakerCall :=
  if tripped then []
  else if !assessment.approved then []
  else if result.success then []
  else [.recordFailure]

/-! ## Concrete fixtures used by counterexamples and witnesses -/

/-- A concrete opportunity passing all eight risk checks under the default
configuration: 1 ether position, 30 gwei gas, profit ratio 2, WETH on
Uniswap V3. -/
def oppPass : Opportunity :=
  { amount := some (10 ^ 18), gasPrice := some (30 * 10 ^ 9),
    expectedProfit := some (2 * 10 ^ 16), gasCost := some (10 ^ 16),
    tokenA := some "WETH", dex := some "uniswapV3" }

/-- Monitor configuration with contract `1` monitored and default value
thresholds. -/
def monCfg : MonitorConfig := { targetContracts := [1] }

/-- A decoder registry that classifies everything as a swap. -/
def swapDecode : MTx → Option Decoded := fun _ => some { ty := some .swap }

/-- A 1-ether transaction to the monitored contract `1`. -/
def txSwap : MTx := { hash := 7, toAddr := some 1, value := 10 ^ 18, dataLen := 0 }

/-- A concrete passed tokenRisk check: value 1 against bound 5, weight 5. -/
def checkTokenPass : RiskCheck :=
  { name := "tokenRisk", passed := true, value := .num 1,
    maxValue := .num 5, weight := 5, reason := none }

/-- A healthy provider with a 50% error rate (2 requests, 1 error), 100 ms
average latency, priority 1. -/
def provA : Provider :=
  { name := "alchemy", priority := 1,
    stats := { requests := 2, errors := 1, latency := [100], healthy := true } }

/-- A healthy provider with no errors, 100 ms average latency, priority 1. -/
def provB : Provider :=
  { name := "infura", priority := 1,
    stats := { requests := 2, errors := 0, latency := [100], healthy := true } }

/-! ## Supporting lemmas -/

theorem filter_not_passed_isEmpty (l : List RiskCheck) :
    (l.filter fun c => !c.passed).isEmpty = l.all fun c => c.passed := by
  induction l with
  | nil => rfl
  | cons c t ih =>
    cases hc : c.passed <;> simp [List.filter_cons, hc, List.all_cons, ← ih]

theorem trip_state (cfg : CBConfig) (now : ℤ) (cb : CB) :
    (cb.trip cfg now).state = .opened := by
  unfold CB.trip
  split
  · assumption
  · rfl

theorem trip_consec (cfg : CBConfig) (now : ℤ) (cb : CB) :
    (cb.trip cfg now).consecutiveFailures = cb.consecutiveFailures := by
  unfold CB.trip
  split <;> rfl

theorem trip_of_opened (cfg : CBConfig) (now : ℤ) (cb : CB) (h : cb.state = .opened) :
    cb.trip cfg now = cb := by
  unfold CB.trip
  rw [if_pos h]

theorem evaluateCircuit_consec (cfg : CBConfig) (now : ℤ) (cb : CB) :
    (cb.evaluateCircuit cfg now).consecutiveFailures = cb.consecutiveFailures := by
  unfold CB.evaluateCircuit
  dsimp only
  split
  · rw [trip_consec]
  · split
    · rw [trip_consec]
    · rfl

theorem recordFailure_consec (cfg : CBConfig) (now : ℤ) (cb : CB) :
    (cb.recordFailure cfg now).consecutiveFailures = cb.consecutiveFailures + 1 := by
  unfold CB.recordFailure
  rw [evaluateCircuit_consec]

theorem recordFailure_opens (cfg : CBConfig) (now : ℤ) (cb : CB)
    (h : cfg.maxConsecutiveFailures ≤ cb.consecutiveFailures + 1) :
    (cb.recordFailure cfg now).state = .opened := by
  unfold CB.recordFailure CB.evaluateCircuit
  dsimp only
  rw [if_pos h, trip_state]

theorem evaluateCircuit_timers_of_opened (cfg : CBConfig) (now : ℤ) (cb : CB)
    (h : cb.state = .opened) :
    (cb.evaluateCircuit cfg now).cooldownTimers = cb.cooldownTimers := by
  obtain ⟨st, f, cf, lf, hf, ct⟩ := cb
  simp only at h
  subst h
  unfold CB.evaluateCircuit
  dsimp only
  split
  · simp [CB.trip]
  · split
    · simp [CB.trip]
    · rfl

theorem recordFailure_timers_of_opened (cfg : CBConfig) (now : ℤ) (cb : CB)
    (h : cb.state = .opened) :
    (cb.recordFailure cfg now).cooldownTimers = cb.cooldownTimers := by
  unfold CB.recordFailure
  rw [evaluateCircuit_timers_of_opened]
  exact h

theorem le_foldl_max (l : List String) (f : String → ℚ) (a : ℚ) :
    a ≤ l.foldl (fun m t => max m (f t)) a := by
  induction l generalizing a with
  | nil => exact le_rfl
  | cons x t ih => exact le_trans (le_max_left a (f x)) (ih (max a (f x)))

theorem estimateSlippage_pos (opp : Opportunity) : 0 < estimateSlippage opp := by
  unfold estimateSlippage
  repeat' split
  all_goals norm_num

theorem div_ratio_le_two (a b K : ℚ) (hb : 0 < b) (hK : 0 < K) (hab : a ≤ b) :
    (a / K) / (b / K) ≤ 2 := by
  have heq : (a / K) / (b / K) = a / b := by
    rw [div_div_div_cancel_right₀]
    exact hK.ne'
  rw [heq]
  have h1 := (div_le_one hb).mpr hab
  linarith

/-- Every check constructed by `assessOpportunity` carries a positive weight
(the source constants are 3–10), so the first side condition of the
monotonicity theorem holds for the real check set. -/
theorem assessChecks_weights_pos (cfg : RMConfig) (stats : DailyStats) (opp : Opportunity) :
    ∀ c ∈ assessChecks cfg stats opp, 0 < c.weight := by
  intro c hc
  simp only [assessChecks, List.mem_cons, List.not_mem_nil, or_false] at hc
  rcases hc with rfl | rfl | rfl | rfl | rfl | rfl | rfl | rfl
  · norm_num [checkDailyLossLimit]
  · norm_num [checkPositionSize]
  · norm_num [checkGasPrice]
  · unfold checkProfitRatio
    repeat' split
    all_goals norm_num
  · norm_num [checkTokenRisk]
  · norm_num [checkDexRisk]
  · norm_num [checkSlippage]
  · unfold checkLiquidity
    repeat' split
    all_goals norm_num

/-- Every check constructed by `assessOpportunity` under positive configured
position-size and gas-price bounds satisfies the second side condition of the
monotonicity theorem: a passed check with truthy `value` and `maxValue` has
ratio at most 2 (in fact at most 1 — each such check passes exactly when its
value is within its bound). -/
theorem assessChecks_ratio_le (cfg : RMConfig) (stats : DailyStats) (opp : Opportunity)
    (hpos : 0 < cfg.maxPositionWei) (hgas : 0 < cfg.maxGasPriceWei) :
    ∀ c ∈ assessChecks cfg stats opp, c.passed = true →
      c.value.truthy = true → c.maxValue.truthy = true →
      c.value.toQ / c.maxValue.toQ ≤ 2 := by
  intro c hc hpass hv hm
  simp only [assessChecks, List.mem_cons, List.not_mem_nil, or_false] at hc
  rcases hc with rfl | rfl | rfl | rfl | rfl | rfl | rfl | rfl
  · simp [checkDailyLossLimit, JSNum.truthy] at hm
  · have hle : (((jsFirst opp.amount opp.inputAmount).getD 0 : ℤ) : ℚ)
        ≤ cfg.maxPositionWei := of_decide_eq_true hpass
    simp only [checkPositionSize, JSNum.toQ]
    exact div_ratio_le_two _ _ _ hpos (by norm_num) hle
  · rcases hgp : opp.gasPrice with _ | g
    · have hle : (30000000000 : ℚ) ≤ cfg.maxGasPriceWei := by
        have := hpass
        simp only [checkGasPrice, hgp] at this
        exact of_decide_eq_true this
      simp only [checkGasPrice, hgp, JSNum.toQ]
      exact div_ratio_le_two _ _ _ hgas (by norm_num) hle
    · have hle : ((g : ℤ) : ℚ) ≤ cfg.maxGasPriceWei := by
        have := hpass
        simp only [checkGasPrice, hgp] at this
        exact of_decide_eq_true this
      simp only [checkGasPrice, hgp, JSNum.toQ]
      exact div_ratio_le_two _ _ _ hgas (by norm_num) hle
  · unfold checkProfitRatio at hm
    repeat' split at hm
    all_goals simp [JSNum.truthy] at hm
  · have h0 : (0 : ℚ) ≤ (extractTokens opp).foldl (fun m t => max m (tokenRiskOf t)) 0 :=
      le_foldl_max _ _ 0
    have hM : cfg.maxTokenRiskV ≠ 0 := by
      simpa [checkTokenRisk, JSNum.truthy] using hm
    have hle : (extractTokens opp).foldl (fun m t => max m (tokenRiskOf t)) 0
        ≤ cfg.maxTokenRiskV := of_decide_eq_true hpass
    have hMpos : 0 < cfg.maxTokenRiskV := lt_of_le_of_ne (le_trans h0 hle) (Ne.symm hM)
    simp only [checkTokenRisk, JSNum.toQ]
    have h1 := (div_le_one hMpos).mpr hle
    linarith
  · have h0 : (0 : ℚ) ≤ (extractDexes opp).foldl (fun m d => max m (dexRiskOf d)) 0 :=
      le_foldl_max _ _ 0
    have hM : cfg.maxDexRiskV ≠ 0 := by
      simpa [checkDexRisk, JSNum.truthy] using hm
    have hle : (extractDexes opp).foldl (fun m d => max m (dexRiskOf d)) 0
        ≤ cfg.maxDexRiskV := of_decide_eq_true hpass
    have hMpos : 0 < cfg.maxDexRiskV := lt_of_le_of_ne (le_trans h0 hle) (Ne.symm hM)
    simp only [checkDexRisk, JSNum.toQ]
    have h1 := (div_le_one hMpos).mpr hle
    linarith
  · have h0 := estimateSlippage_pos opp
    have hM : cfg.maxSlippageBpsV ≠ 0 := by
      simpa [checkSlippage, JSNum.truthy] using hm
    have hle : estimateSlippage opp ≤ cfg.maxSlippageBpsV := of_decide_eq_true hpass
    have hMpos : 0 < cfg.maxSlippageBpsV := lt_of_lt_of_le h0 hle
    simp only [checkSlippage, JSNum.toQ]
    have h1 := (div_le_one hMpos).mpr hle
    linarith
  · unfold checkLiquidity at hm
    repeat' split at hm
    all_goals simp [JSNum.truthy] at hm

theorem foldl_bestStep_some (ps : List Provider) :
    ∀ (b : Provider), b.stats.healthy = true →
    ((ps.foldl bestStep (b, some (providerScore b))).1.stats.healthy = true
      ∧ providerScore (ps.foldl bestStep (b, some (providerScore b))).1
          ≤ providerScore b
      ∧ ((ps.foldl bestStep (b, some (providerScore b))).1 = b
          ∨ (ps.foldl bestStep (b, some (providerScore b))).1 ∈ ps)
      ∧ (ps.foldl bestStep (b, some (providerScore b))).2
          = some (providerScore (ps.foldl bestStep (b, some (providerScore b))).1)
      ∧ ∀ q ∈ ps, q.stats.healthy = true →
          providerScore (ps.foldl bestStep (b, some (providerScore b))).1
            ≤ providerScore q) := by
  induction ps with
  | nil =>
    intro b hb
    exact ⟨hb, le_rfl, Or.inl rfl, rfl, by intro q hq; simp at hq⟩
  | cons p t ih =>
    intro b hb
    by_cases hph : p.stats.healthy = true
    · by_cases hlt : providerScore p < providerScore b
      · have hstep : bestStep (b, some (providerScore b)) p = (p, some (providerScore p)) := by
          unfold bestStep
          simp [hph, hlt]
        rw [List.foldl_cons, hstep]
        obtain ⟨ih1, ih2, ih3, ih4, ih5⟩ := ih p hph
        refine ⟨ih1, le_trans ih2 hlt.le, ?_, ih4, ?_⟩
        · rcases ih3 with heq | hm
          · refine Or.inr ?_
            rw [heq]
            exact List.mem_cons_self p t
          · exact Or.inr (List.mem_cons_of_mem p hm)
        · intro q hq hqh
          rcases List.mem_cons.mp hq with rfl | hq2
          · exact ih2
          · exact ih5 q hq2 hqh
      · have hstep : bestStep (b, some (providerScore b)) p = (b, some (providerScore b)) := by
          unfold bestStep
          simp [hph, hlt]
        rw [List.foldl_cons, hstep]
        obtain ⟨ih1, ih2, ih3, ih4, ih5⟩ := ih b hb
        refine ⟨ih1, ih2, ?_, ih4, ?_⟩
        · rcases ih3 with heq | hm
          · exact Or.inl heq
          · exact Or.inr (List.mem_cons_of_mem p hm)
        · intro q hq hqh
          rcases List.mem_cons.mp hq with rfl | hq2
          · exact le_trans ih2 (not_lt.mp hlt)
          · exact ih5 q hq2 hqh
    · have hstep : bestStep (b, some (providerScore b)) p = (b, some (providerScore b)) := by
        unfold bestStep
        simp [hph]
      rw [List.foldl_cons, hstep]
      obtain ⟨ih1, ih2, ih3, ih4, ih5⟩ := ih b hb
      refine ⟨ih1, ih2, ?_, ih4, ?_⟩
      · rcases ih3 with heq | hm
        · exact Or.inl heq
        · exact Or.inr (List.mem_cons_of_mem p hm)
      · intro q hq hqh
        rcases List.mem_cons.mp hq with rfl | hq2
        · exact absurd hqh hph
        · exact ih5 q hq2 hqh

theorem foldl_bestStep_none (ps : List Provider) :
    ∀ (b : Provider), (∃ p ∈ ps, p.stats.healthy = true) →
    ((ps.foldl bestStep (b, none)).1.stats.healthy = true
      ∧ (ps.foldl bestStep (b, none)).1 ∈ ps
      ∧ ∀ q ∈ ps, q.stats.healthy = true →
          providerScore (ps.foldl bestStep (b, none)).1 ≤ providerScore q) := by
  induction ps with
  | nil =>
    intro b h
    simp at h
  | cons p t ih =>
    intro b h
    by_cases hph : p.stats.healthy = true
    · have hstep : bestStep (b, none) p = (p, some (providerScore p)) := by
        unfold bestStep
        simp [hph]
      rw [List.foldl_cons, hstep]
      obtain ⟨h1, h2, h3, _, h5⟩ := foldl_bestStep_some t p hph
      refine ⟨h1, ?_, ?_⟩
      · rcases h3 with heq | hm
        · rw [heq]
          exact List.mem_cons_self p t
        · exact List.mem_cons_of_mem p hm
      · intro q hq hqh
        rcases List.mem_cons.mp hq with rfl | hq2
        · exact h2
        · exact h5 q hq2 hqh
    · have hstep : bestStep (b, none) p = (b, none) := by
        unfold bestStep
        simp [hph]
      rw [List.foldl_cons, hstep]
      obtain ⟨x, hx, hxh⟩ := h
      have hx2 : x ∈ t := by
        rcases List.mem_cons.mp hx with rfl | hx2
        · exact absurd hxh hph
        · exact hx2
      obtain ⟨h1, h2, h3⟩ := ih b ⟨x, hx2, hxh⟩
      refine ⟨h1, List.mem_cons_of_mem p h2, ?_⟩
      intro q hq hqh
      rcases List.mem_cons.mp hq with rfl | hq2
      · exact absurd hqh hph
      · exact h3 q hq2 hqh

/-! ## Concrete evaluation lemmas shared by several proofs -/

theorem oppPass_approved :
    (assessOpportunity { maxRiskScore := some 7 } (freshStats 0) oppPass 0).1.approved
      = true := by
  norm_num [assessOpportunity, liquidityThrows, checkDailyReset, dayOf, assessChecks,
    checkDailyLossLimit, checkPositionSize, checkGasPrice, checkProfitRatio,
    checkTokenRisk, checkDexRisk, checkSlippage, checkLiquidity, oppPass, jsFirst,
    jsOr, freshStats, RMConfig.maxPositionWei, RMConfig.maxDailyLossWei,
    RMConfig.maxGasPriceWei, RMConfig.minProfitRatioV, RMConfig.maxTokenRiskV,
    RMConfig.maxDexRiskV, RMConfig.maxSlippageBpsV, extractTokens, extractDexes,
    jsSet, tokenRiskScores, dexRiskScores, tokenRiskOf, dexRiskOf, estimateSlippage,
    calculateRiskScore, totalWeight, checkContribution, effWeight, JSNum.truthy,
    JSNum.toQ, Int.tdiv]

/-! ## Claims -/

/-- C10: for every trade result with `success = false`,
`RiskManager.updateTradeResult` leaves the daily stats completely unchanged,
so `checkDailyLossLimit` observes exactly the same remaining budget — losses
incurred by failed executions (such as gas spent) are never accumulated. -/
theorem failed_trade_frame (cfg : RMConfig) (stats : DailyStats) (r : TradeResult)
    (h : r.success = false) :
    updateTradeResult stats r = stats
    ∧ checkDailyLossLimit cfg (updateTradeResult stats r) = checkDailyLossLimit cfg stats := by
  have hfix : updateTradeResult stats r = stats := by
    unfold updateTradeResult
    rw [h]
    rfl
  exact ⟨hfix, by rw [hfix]⟩

/-- Witness for C10 at a concrete failed trade carrying a negative profit. -/
theorem failed_trade_frame_witness :
    updateTradeResult (freshStats 0) ⟨false, -5⟩ = freshStats 0
    ∧ checkDailyLossLimit {} (updateTradeResult (freshStats 0) ⟨false, -5⟩)
        = checkDailyLossLimit {} (freshStats 0) :=
  failed_trade_frame {} (freshStats 0) ⟨false, -5⟩ rfl

/-- C5 (bug evaluation): with the per-wallet counter at 5, building a
2-transaction bundle assigns nonces 5 and 6 to the bundle but advances the
counter only once, so the very next `getNonce` call hands nonce 6 — a nonce
already assigned to the bundle — to the next plan: reserved ranges of
distinct plans overlap. -/
theorem bundle_nonce_overlap :
    (buildBundleNonces 2 0 (some 5)).1 = [5, 6]
    ∧ (getNonce 0 (buildBundleNonces 2 0 (some 5)).2).1 = 6
    ∧ (getNonce 0 (buildBundleNonces 2 0 (some 5)).2).1 ∈ (buildBundleNonces 2 0 (some 5)).1 := by
  decide

/-- C4 (bug evaluation): no execution path of `MEVBot.handleOpportunity`
ever issues a `recordSuccess` call to the circuit breaker — a concretely
approved opportunity whose execution succeeds produces no breaker call at
all, while a failed execution produces exactly one `recordFailure`. -/
theorem success_outcome_never_reported :
    (∀ (tripped : Bool) (a : RiskAssessment) (r : ExecResult),
      BreakerCall.recordSuccess ∉ handleOpportunityBreakerCalls tripped a r)
    ∧ handleOpportunityBreakerCalls false
        (assessOpportunity { maxRiskScore := some 7 } (freshStats 0) oppPass 0).1
        ⟨true, 10 ^ 16⟩ = []
    ∧ handleOpportunityBreakerCalls false
        (assessOpportunity { maxRiskScore := some 7 } (freshStats 0) oppPass 0).1
        ⟨false, 0⟩ = [.recordFailure] := by
  refine ⟨?_,
    by simp [handleOpportunityBreakerCalls, oppPass_approved],
    by simp [handleOpportunityBreakerCalls, oppPass_approved]⟩
  intro tripped a r
  unfold handleOpportunityBreakerCalls
  split
  · simp
  · split
    · simp
    · split <;> simp

/-- C1 (amended): Admission Control performs no expiry check at all — the
result of `RiskManager.assessOpportunity` (and hence the decision taken in
`MEVBot.handleOpportunity`) is a function of the opportunity's other fields
only; `expiresAt` is never consulted and no `expired` rejection reason
exists. -/
theorem assess_ignores_expiry (cfg : RMConfig) (stats : DailyStats)
    (opp : Opportunity) (now e : ℕ) :
    assessOpportunity cfg stats { opp with expiresAt := e } now
      = assessOpportunity cfg stats opp now := by
  cases opp
  rfl

/-- C1 (counterexample): an opportunity whose `expiresAt` (5 ms) lies far in
the past of the admission-time clock (`now` about 2001-09-09) is fully
approved with no rejection reason — it is not rejected with reason
`expired`, and processing continues. -/
theorem expired_opportunity_still_approved :
    ({ oppPass with expiresAt := 5 } : Opportunity).expiresAt < 1000000000000
    ∧ (assessOpportunity { maxRiskScore := some 7 } (freshStats 0)
        { oppPass with expiresAt := 5 } 1000000000000).1.approved = true
    ∧ (assessOpportunity { maxRiskScore := some 7 } (freshStats 0)
        { oppPass with expiresAt := 5 } 1000000000000).1.reason = none := by
  refine ⟨by norm_num [oppPass], ?_, ?_⟩ <;>
    norm_num [assessOpportunity, liquidityThrows, checkDailyReset, dayOf, assessChecks,
      checkDailyLossLimit, checkPositionSize, checkGasPrice, checkProfitRatio,
      checkTokenRisk, checkDexRisk, checkSlippage, checkLiquidity, oppPass, jsFirst,
      jsOr, freshStats, RMConfig.maxPositionWei, RMConfig.maxDailyLossWei,
      RMConfig.maxGasPriceWei, RMConfig.minProfitRatioV, RMConfig.maxTokenRiskV,
      RMConfig.maxDexRiskV, RMConfig.maxSlippageBpsV, extractTokens, extractDexes,
      jsSet, tokenRiskScores, dexRiskScores, tokenRiskOf, dexRiskOf, estimateSlippage,
      calculateRiskScore, totalWeight, checkContribution, effWeight, JSNum.truthy,
      JSNum.toQ, Int.tdiv]

/-- C6 (amended): `assessOpportunity` approves exactly when the check run did
not throw, every check passed, and the composite score is strictly below
`config.maxRiskScore` — which is read straight from the configuration with no
in-code default: when it is absent the comparison with `undefined` is false
and nothing is ever approved (the shipped sample configuration sets it to
7). -/
theorem assess_approval_rule (cfg : RMConfig) (stats : DailyStats)
    (opp : Opportunity) (now : ℕ) :
    (assessOpportunity cfg stats opp now).1.approved =
      (!liquidityThrows opp
        && (assessChecks cfg (checkDailyReset now stats) opp).all (fun c => c.passed)
        && (match cfg.maxRiskScore with
            | some m => decide (calculateRiskScore
                (assessChecks cfg (checkDailyReset now stats) opp) < m)
            | none => false)) := by
  unfold assessOpportunity
  cases h : liquidityThrows opp
  · simp only [h, Bool.false_eq_true, if_false, Bool.not_false, Bool.true_and]
    rw [← filter_not_passed_isEmpty]
  · simp [h, errorAssessment]

/-- C6 (counterexample to the claimed default): under a configuration that
leaves `maxRiskScore` unset, a concrete opportunity passing every check with
composite score 28/51 < 7 is still rejected — the claimed default ceiling of
7 does not exist in the code. -/
theorem unset_ceiling_blocks_approval :
    ((assessOpportunity {} (freshStats 0) oppPass 0).1.checks.all fun c => c.passed) = true
    ∧ (assessOpportunity {} (freshStats 0) oppPass 0).1.score = some (28 / 51)
    ∧ ((28 : ℚ) / 51 < 7)
    ∧ (assessOpportunity {} (freshStats 0) oppPass 0).1.approved = false := by
  refine ⟨?_, ?_, by norm_num, ?_⟩ <;>
    norm_num [assessOpportunity, liquidityThrows, checkDailyReset, dayOf, assessChecks,
      checkDailyLossLimit, checkPositionSize, checkGasPrice, checkProfitRatio,
      checkTokenRisk, checkDexRisk, checkSlippage, checkLiquidity, oppPass, jsFirst,
      jsOr, freshStats, RMConfig.maxPositionWei, RMConfig.maxDailyLossWei,
      RMConfig.maxGasPriceWei, RMConfig.minProfitRatioV, RMConfig.maxTokenRiskV,
      RMConfig.maxDexRiskV, RMConfig.maxSlippageBpsV, extractTokens, extractDexes,
      jsSet, tokenRiskScores, dexRiskScores, tokenRiskOf, dexRiskOf, estimateSlippage,
      calculateRiskScore, totalWeight, checkContribution, effWeight, JSNum.truthy,
      JSNum.toQ, Int.tdiv, min_def]

/-- C2 (amended): the dedup set protects only the pending-transaction path —
a pending notification for a hash already in `processedTxs` is dropped with
no state change and no event; the block path processes transactions without
consulting the set, so a hash seen again inside a block is re-classified and
re-emitted. -/
theorem pending_dedup (decode : MTx → Option Decoded) (cfg : MonitorConfig)
    (st : MonitorState) (h : ℕ) (fetch : ℕ → Option MTx)
    (hmem : h ∈ st.processedTxs) :
    pendingStep decode cfg st h fetch = (st, []) := by
  unfold pendingStep
  rw [if_pos hmem]

/-- Witness for the pending-path dedup at a concrete already-seen hash. -/
theorem pending_dedup_witness :
    pendingStep swapDecode monCfg ⟨[7]⟩ 7 (fun _ => some txSwap) = (⟨[7]⟩, []) :=
  pending_dedup swapDecode monCfg ⟨[7]⟩ 7 (fun _ => some txSwap) (by simp)

/-- C2 (counterexample): a swap transaction first seen as a pending
notification and then again inside a block is classified and emitted twice —
the block path never consults the dedup set, so at-most-one-classified-event
per hash fails. -/
theorem monitor_reemits_on_block_path :
    classifiedCount
      ((pendingStep swapDecode monCfg ⟨[]⟩ 7 (fun _ => some txSwap)).2
        ++ (blockStep swapDecode monCfg
              (pendingStep swapDecode monCfg ⟨[]⟩ 7 (fun _ => some txSwap)).1
              100 [txSwap]).2) 7 = 2 := by
  norm_num [pendingStep, blockStep, processTransaction, swapDecode, monCfg, txSwap,
    isTargetTransaction, isInterestingTransaction, MonitorConfig.minValueWei,
    MonitorConfig.highValueWei, emitSpecificEvents, classifiedCount, List.filter]
  decide

/-- C8: `Executor.execute` reaches a dispatch path exactly when the
simulation succeeded and its simulated profit is at least the configured
minimum; the gate is independent of the opportunity's own
`expectedProfit`; a failed simulation returns the failure reason
`Simulation failed` and a below-minimum simulated profit returns
`Profit below minimum threshold` — in both cases no dispatch branch (where
signing and submission happen) is entered. -/
theorem executor_simulation_gate (mp : Option ℚ) (opp : Opportunity) (sim : SimResult)
    (e : Option ℤ) :
    ((∃ pth, executeGate mp opp sim = .dispatched pth) ↔
      (sim.success = true ∧ execMinProfitWei mp ≤ (sim.profit : ℚ)))
    ∧ executeGate mp { opp with expectedProfit := e } sim = executeGate mp opp sim
    ∧ (executeGate mp opp sim = .rejected "Simulation failed" ↔ sim.success = false)
    ∧ (executeGate mp opp sim = .rejected "Profit below minimum threshold" ↔
        (sim.success = true ∧ (sim.profit : ℚ) < execMinProfitWei mp)) := by
  refine ⟨?_, by cases opp; rfl, ?_, ?_⟩ <;>
    unfold executeGate <;>
    cases hs : sim.success <;>
    by_cases hp : (sim.profit : ℚ) < execMinProfitWei mp <;>
    (try simp [hs, hp]) <;>
    (try linarith)

/-- C3: the CircuitBreaker behaves as the specified 3-state machine — with
`maxConsecutiveFailures = 5`, five `recordFailure` calls with no intervening
`recordSuccess` take the freshly constructed breaker from CLOSED to OPEN; a
`recordSuccess` while HALF_OPEN closes the circuit and resets
`consecutiveFailures` to 0; and a `recordFailure` while already OPEN arms no
new cooldown timer. -/
theorem circuit_breaker_state_machine (cfg : CBConfig) (t₁ t₂ t₃ t₄ t₅ t : ℤ)
    (cb₁ cb₂ : CB) (h5 : cfg.maxConsecutiveFailures = 5)
    (hHalf : cb₁.state = .halfOpen) (hOpen : cb₂.state = .opened) :
    (CB.recordFailure cfg t₅ (CB.recordFailure cfg t₄ (CB.recordFailure cfg t₃
      (CB.recordFailure cfg t₂ (CB.recordFailure cfg t₁ CB.init))))).state = .opened
    ∧ (CB.recordSuccess cb₁).state = .closed
    ∧ (CB.recordSuccess cb₁).consecutiveFailures = 0
    ∧ (CB.recordFailure cfg t cb₂).cooldownTimers = cb₂.cooldownTimers := by
  refine ⟨?_, ?_, ?_, recordFailure_timers_of_opened cfg t cb₂ hOpen⟩
  · apply recordFailure_opens
    rw [h5, recordFailure_consec, recordFailure_consec, recordFailure_consec,
      recordFailure_consec]
    rfl
  · unfold CB.recordSuccess
    rw [if_pos (show ({ cb₁ with consecutiveFailures := 0 } : CB).state = .halfOpen
      from hHalf)]
    rfl
  · unfold CB.recordSuccess
    rw [if_pos (show ({ cb₁ with consecutiveFailures := 0 } : CB).state = .halfOpen
      from hHalf)]
    rfl

/-- Witness for C3 at the default configuration, concrete failure times, a
concrete half-open breaker, and a concrete open breaker. -/
theorem circuit_breaker_state_machine_witness :
    (CB.recordFailure {} 4 (CB.recordFailure {} 3 (CB.recordFailure {} 2
      (CB.recordFailure {} 1 (CB.recordFailure {} 0 CB.init))))).state = .opened
    ∧ (CB.recordSuccess { CB.init with state := .halfOpen }).state = .closed
    ∧ (CB.recordSuccess { CB.init with state := .halfOpen }).consecutiveFailures = 0
    ∧ (CB.recordFailure {} 9 { CB.init with state := .opened }).cooldownTimers
        = ({ CB.init with state := .opened } : CB).cooldownTimers :=
  circuit_breaker_state_machine {} 0 1 2 3 4 9
    { CB.init with state := .halfOpen } { CB.init with state := .opened }
    rfl rfl rfl

/-- C7: holding every other check fixed, turning any single passed check into
a failed one never decreases the composite score. The two side conditions
hold for every check the `RiskManager` constructs: all source weights are
positive (3–10), and a passed check that carries both a `value` and a
`maxValue` satisfies `value ≤ maxValue` (each such check passes exactly when
its value is within its bound), so its ratio is at most 2. -/
theorem risk_score_monotone (l₁ l₂ : List RiskCheck) (c : RiskCheck)
    (hw : ∀ x ∈ l₁ ++ c :: l₂, 0 < x.weight)
    (hp : c.passed = true)
    (hr : c.value.truthy = true → c.maxValue.truthy = true →
      c.value.toQ / c.maxValue.toQ ≤ 2) :
    calculateRiskScore (l₁ ++ c :: l₂) ≤
      calculateRiskScore (l₁ ++ { c with passed := false } :: l₂) := by
  have heffc : (0 : ℚ) < effWeight c.weight := by
    have h0 := hw c (by simp)
    unfold effWeight
    split
    · norm_num
    · exact h0
  have htw : totalWeight (l₁ ++ { c with passed := false } :: l₂)
      = totalWeight (l₁ ++ c :: l₂) := by
    unfold totalWeight
    simp
  have htwpos : 0 < totalWeight (l₁ ++ c :: l₂) := by
    unfold totalWeight
    apply List.sum_pos
    · intro q hq
      obtain ⟨x, hx, rfl⟩ := List.mem_map.mp hq
      have h0 := hw x hx
      unfold effWeight
      split
      · norm_num
      · exact h0
    · simp
  have hcon : checkContribution c ≤ checkContribution { c with passed := false } := by
    have hc2 : checkContribution { c with passed := false } = effWeight c.weight * 10 := rfl
    rw [hc2]
    unfold checkContribution
    simp only [hp, Bool.not_true, Bool.false_eq_true, if_false]
    split
    · rename_i hb
      obtain ⟨h1, h2⟩ := Bool.and_eq_true_iff.mp hb
      have h3 : effWeight c.weight * (c.value.toQ / c.maxValue.toQ)
          ≤ effWeight c.weight * 2 :=
        mul_le_mul_of_nonneg_left (hr h1 h2) heffc.le
      linarith
    · linarith
  have hsum : (List.map checkContribution (l₁ ++ c :: l₂)).sum
      ≤ (List.map checkContribution (l₁ ++ { c with passed := false } :: l₂)).sum := by
    simp only [List.map_append, List.map_cons, List.sum_append, List.sum_cons]
    linarith
  unfold calculateRiskScore
  rw [htw]
  apply min_le_min le_rfl
  exact (div_le_div_iff_of_pos_right htwpos).mpr hsum

/-- Witness for C7: failing the concrete tokenRisk check (value 1, bound 5,
weight 5) does not lower the composite score. -/
theorem risk_score_monotone_witness :
    calculateRiskScore [checkTokenPass] ≤
      calculateRiskScore [{ checkTokenPass with passed := false }] :=
  risk_score_monotone [] [] checkTokenPass (by decide) rfl
    (fun h1 h2 => by norm_num [checkTokenPass, JSNum.toQ])

/-- C9 (amended): `ProviderManager.getBestProvider` skips every unhealthy
provider and, whenever the pool contains at least one healthy provider,
returns a healthy pool member whose score
`avgLatency + errorRate*1000 - priority*10` (lower is better) is minimal
among the healthy providers. -/
theorem getBestProvider_selects_best (primary : Provider) (ps : List Provider)
    (h : ∃ p ∈ ps, p.stats.healthy = true) :
    (getBestProvider primary ps).stats.healthy = true
    ∧ getBestProvider primary ps ∈ ps
    ∧ ∀ q ∈ ps, q.stats.healthy = true →
        providerScore (getBestProvider primary ps) ≤ providerScore q := by
  unfold getBestProvider
  exact foldl_bestStep_none ps primary h

/-- Witness for C9 on a two-element healthy pool. -/
theorem getBestProvider_selects_best_witness :
    (getBestProvider provA [provA, provB]).stats.healthy = true
    ∧ getBestProvider provA [provA, provB] ∈ [provA, provB]
    ∧ ∀ q ∈ [provA, provB], q.stats.healthy = true →
        providerScore (getBestProvider provA [provA, provB]) ≤ providerScore q :=
  getBestProvider_selects_best provA [provA, provB] ⟨provA, by simp, rfl⟩

/-- C9 (counterexample to the claimed score formula): with provider A at 50%
error rate and provider B error-free (equal latency and priority), the code
selects B — it minimises `latency + errorRate*1000 - priority*10` — whereas
the claimed formula `latency - errorRate*1000 + priority*10` with lower
values preferred would select A. -/
theorem best_provider_score_formula_differs :
    getBestProvider provA [provA, provB] = provB
    ∧ getBestProviderSpec provA [provA, provB] = provA
    ∧ provA ≠ provB := by
  refine ⟨?_, ?_, by simp [provA, provB]⟩ <;>
    norm_num [getBestProvider, getBestProviderSpec, bestStep, specBestStep,
      providerScore, specProviderScore, avgLatency, errorRate, provA, provB]

end MevBot
